import Mathlib

/-!
Verification development for the Reference Overlay server
(`server.js`): session relay, state cache, export scheduler,
alpha compositor, export publisher and the `/atem-live` HTTP surface.

Each section embeds one part of the server source as executable Lean
definitions and proves the specified properties about them.
-/

/-! ## AlphaCompositor: `premultiplyAlphaPng`

The server transforms a straight-alpha RGBA bitmap into a
premultiplied-alpha bitmap.  For each pixel, stored as four consecutive
bytes `r, g, b, a` of the flat `png.data` array, the loop body is:

```js
const a = data[i + 3];
if (a === 255) continue;
if (a === 0) { data[i] = 0; data[i+1] = 0; data[i+2] = 0; continue; }
data[i]   = Math.round((data[i]   * a) / 255);
data[i+1] = Math.round((data[i+1] * a) / 255);
data[i+2] = Math.round((data[i+2] * a) / 255);
```
-/

/-- `Math.round (num / den)` for non-negative integer arguments:
`floor (num/den + 1/2)`, computed purely on naturals.  JavaScript's
`Math.round` rounds half-way cases up (towards positive infinity),
exactly like `floor (x + 1/2)`. -/
def jsRound (num den : Nat) : Nat :=
  (2 * num + den) / (2 * den)

/-- An RGBA bitmap as decoded by `PNG.sync.read`: dimensions plus the
flat byte array `data` (four bytes per pixel, length `4 * width * height`). -/
structure Bitmap where
  width : Nat
  height : Nat
  data : List Nat
  deriving Repr, DecidableEq

/-- The per-byte loop of `premultiplyAlphaPng`, processing the flat
RGBA data four bytes at a time (a shorter tail is left untouched; with a
well-formed PNG buffer the length is always a multiple of four). -/
def premultData : List Nat → List Nat
  | r :: g :: b :: a :: rest =>
    (if a = 255 then [r, g, b, a]
     else if a = 0 then [0, 0, 0, a]
     else [jsRound (r * a) 255, jsRound (g * a) 255, jsRound (b * a) 255, a])
    ++ premultData rest
  | rest => rest

/-- `premultiplyAlphaPng`: decode, premultiply every pixel in place,
re-encode.  `PNG.sync.read` / `PNG.sync.write` preserve the dimensions;
only the `data` array is rewritten. -/
def premultiplyAlphaPng (bmp : Bitmap) : Bitmap :=
  { bmp with data := premultData bmp.data }

/-- `jsRound` agrees with mathematical rounding of the exact quotient:
for a positive denominator, `jsRound num den` is `round (num / den)`
over the rationals (`round` is the half-up rounding used by
JavaScript's `Math.round` on non-negative inputs). -/
theorem jsRound_eq_round (num den : Nat) (hden : 0 < den) :
    (jsRound num den : ℤ) = round ((num : ℚ) / (den : ℚ)) := by
  have hden' : (den : ℚ) ≠ 0 := by positivity
  have h2den : (0 : ℚ) < ((2 * den : Nat) : ℚ) := by positivity
  have hx : (num : ℚ) / (den : ℚ) + 1 / 2
      = ((2 * num + den : Nat) : ℚ) / ((2 * den : Nat) : ℚ) := by
    push_cast
    field_simp
    ring
  have hnonneg : (0 : ℚ) ≤ ((2 * num + den : Nat) : ℚ) / ((2 * den : Nat) : ℚ) := by
    positivity
  rw [round_eq, hx, ← Int.natCast_floor_eq_floor hnonneg,
    Nat.floor_div_eq_div]
  rfl

/-- C1: the premultiply transform maps every RGBA pixel `(r,g,b,a)` as
specified: if `a = 255` the pixel is a fixed point; if `a = 0` the
R,G,B channels become `(0,0,0)`; otherwise each colour channel `c` is
replaced by `round (c * a / 255)` (exact rational rounding); and the
concrete pixel `(200,100,50,128)` maps to `(100,50,25,128)`. -/
theorem premultiply_pixel_spec (r g b a : Nat) :
    (a = 255 → premultData [r, g, b, a] = [r, g, b, a]) ∧
    (a = 0 → premultData [r, g, b, a] = [0, 0, 0, 0]) ∧
    (a ≠ 255 → a ≠ 0 →
      premultData [r, g, b, a]
        = [(round ((r * a : Nat) / 255 : ℚ)).toNat,
           (round ((g * a : Nat) / 255 : ℚ)).toNat,
           (round ((b * a : Nat) / 255 : ℚ)).toNat, a]) ∧
    premultData [200, 100, 50, 128] = [100, 50, 25, 128] := by
  refine ⟨?_, ?_, ?_, by decide⟩
  · intro h; subst h; simp [premultData]
  · intro h; subst h; simp [premultData]
  · intro h255 h0
    have hr : ((jsRound (r * a) 255 : Nat) : ℤ) = round ((r * a : Nat) / 255 : ℚ) :=
      jsRound_eq_round (r * a) 255 (by norm_num)
    have hg : ((jsRound (g * a) 255 : Nat) : ℤ) = round ((g * a : Nat) / 255 : ℚ) :=
      jsRound_eq_round (g * a) 255 (by norm_num)
    have hb : ((jsRound (b * a) 255 : Nat) : ℤ) = round ((b * a : Nat) / 255 : ℚ) :=
      jsRound_eq_round (b * a) 255 (by norm_num)
    simp only [premultData, h255, h0, if_false, List.cons_append, List.nil_append,
      List.cons.injEq, and_true]
    exact ⟨by rw [← hr, Int.toNat_natCast], by rw [← hg, Int.toNat_natCast],
      by rw [← hb, Int.toNat_natCast]⟩

/-- Witness for `premultiply_pixel_spec` at the pixel `(200,100,50,128)`. -/
theorem premultiply_pixel_spec_witness :
    premultData [200, 100, 50, 128] = [100, 50, 25, 128] :=
  (premultiply_pixel_spec 200 100 50 128).2.2.2

theorem premultData_length : ∀ l : List Nat, (premultData l).length = l.length
  | [] => rfl
  | [_] => rfl
  | [_, _] => rfl
  | [_, _, _] => rfl
  | r :: g :: b :: a :: rest => by
      have ih := premultData_length rest
      simp only [premultData, List.length_append, List.length_cons]
      split_ifs <;> simp [ih] <;> omega

theorem premultData_getD_alpha : ∀ (l : List Nat) (k : Nat),
    (premultData l).getD (4 * k + 3) 0 = l.getD (4 * k + 3) 0
  | [], _ => rfl
  | [_], _ => rfl
  | [_, _], _ => rfl
  | [_, _, _], _ => rfl
  | r :: g :: b :: a :: rest, 0 => by
      simp only [premultData]
      split_ifs <;> rfl
  | r :: g :: b :: a :: rest, k + 1 => by
      have ih := premultData_getD_alpha rest k
      have hidx : 4 * (k + 1) + 3 = 4 * k + 3 + 1 + 1 + 1 + 1 := by ring
      simp only [premultData, hidx]
      split_ifs <;>
        simpa [List.getD_cons_succ] using ih

theorem premultData_getD_opaque : ∀ (l : List Nat) (k j : Nat), j < 4 →
    l.getD (4 * k + 3) 0 = 255 →
    (premultData l).getD (4 * k + j) 0 = l.getD (4 * k + j) 0
  | [], _, _, _, _ => rfl
  | [_], _, _, _, _ => rfl
  | [_, _], _, _, _, _ => rfl
  | [_, _, _], _, _, _, _ => rfl
  | r :: g :: b :: a :: rest, 0, j, hj, ha => by
      have ha' : a = 255 := by simpa using ha
      simp only [premultData, ha', if_true, eq_self_iff_true]
      interval_cases j <;> rfl
  | r :: g :: b :: a :: rest, k + 1, j, hj, ha => by
      have ha' : rest.getD (4 * k + 3) 0 = 255 := by
        have hidx : 4 * (k + 1) + 3 = 4 * k + 3 + 1 + 1 + 1 + 1 := by ring
        simpa [hidx, List.getD_cons_succ] using ha
      have ih := premultData_getD_opaque rest k j hj ha'
      have hidx : 4 * (k + 1) + j = 4 * k + j + 1 + 1 + 1 + 1 := by ring
      simp only [premultData, hidx]
      split_ifs <;>
        simpa [List.getD_cons_succ] using ih

/-- C9: `premultiplyAlphaPng` preserves the image width, height and
byte count, leaves the alpha byte of every pixel unchanged, and leaves
every byte of an opaque pixel (alpha byte `255`) unchanged — only the
R,G,B bytes of non-opaque pixels are modified. -/
theorem premultiply_frame_spec (bmp : Bitmap) :
    (premultiplyAlphaPng bmp).width = bmp.width ∧
    (premultiplyAlphaPng bmp).height = bmp.height ∧
    (premultiplyAlphaPng bmp).data.length = bmp.data.length ∧
    (∀ i, i % 4 = 3 →
      (premultiplyAlphaPng bmp).data.getD i 0 = bmp.data.getD i 0) ∧
    (∀ i, i % 4 = 0 → bmp.data.getD (i + 3) 0 = 255 →
      ∀ j, j < 4 →
        (premultiplyAlphaPng bmp).data.getD (i + j) 0 = bmp.data.getD (i + j) 0) := by
  refine ⟨rfl, rfl, premultData_length bmp.data, ?_, ?_⟩
  · intro i hi
    obtain ⟨k, rfl⟩ : ∃ k, i = 4 * k + 3 := ⟨i / 4, by omega⟩
    exact premultData_getD_alpha bmp.data k
  · intro i hi ha j hj
    obtain ⟨k, rfl⟩ : ∃ k, i = 4 * k := ⟨i / 4, by omega⟩
    exact premultData_getD_opaque bmp.data k j hj ha

/-- Witness for `premultiply_frame_spec` on a concrete two-pixel bitmap
(one opaque pixel, one semi-transparent pixel). -/
theorem premultiply_frame_spec_witness :
    (premultiplyAlphaPng ⟨2, 1, [10, 20, 30, 255, 200, 100, 50, 128]⟩).data.getD 7 0
      = (⟨2, 1, [10, 20, 30, 255, 200, 100, 50, 128]⟩ : Bitmap).data.getD 7 0 ∧
    (premultiplyAlphaPng ⟨2, 1, [10, 20, 30, 255, 200, 100, 50, 128]⟩).data.getD 1 0
      = (⟨2, 1, [10, 20, 30, 255, 200, 100, 50, 128]⟩ : Bitmap).data.getD 1 0 :=
  ⟨(premultiply_frame_spec ⟨2, 1, [10, 20, 30, 255, 200, 100, 50, 128]⟩).2.2.2.1
      7 (by decide),
   (premultiply_frame_spec ⟨2, 1, [10, 20, 30, 255, 200, 100, 50, 128]⟩).2.2.2.2
      0 (by decide) (by decide) 1 (by decide)⟩

/-! ## StateCache: per-session snapshot and replay-on-join

The server keeps, per session id, the snapshot mutated by the
`ws.on('message')` handler:

```js
if (msg.action === 'settings') {
  state.settings = raw.toString();
} else if (msg.action === 'show') {
  state.show = raw.toString();
  if (msg.settings) state.settings = JSON.stringify(msg.settings);
  state.overlayVisible = true;
} else if (msg.action === 'clear') {
  state.overlayVisible = false;
} else if (msg.action === 'show-ticker') {
  state.showTicker = raw.toString();
  state.tickerVisible = true;
} else if (msg.action === 'clear-ticker') {
  state.tickerVisible = false;
}
```

and on a new `role=output` connection sends `state.settings`,
`state.show`, `state.showTicker`, in that order, each only if non-null.
-/

/-- Wire actions, decoded once at the boundary from `msg.action`
(the source compares the JSON `action` string; unknown or non-JSON
messages fall into `unrecognized`, which is relayed but never
interpreted).  The `atem-*` constructors carry the optional
`msg.sessionId` field (and `pinCurrentSession` for config). -/
inductive WireAction where
  | settings
  | showOverlay
  | clear
  | showTicker
  | clearTicker
  | atemExportConfig (pin : Bool) (sessionId : Option String)
  | atemExportStatus (sessionId : Option String)
  | atemExportRefresh (sessionId : Option String)
  | unrecognized
  deriving Repr, DecidableEq

/-- A decoded client message: `raw` is `raw.toString()` (the exact
bytes relayed and cached), `action` is the parsed `msg.action`, and
`settingsJson` is `JSON.stringify(msg.settings)` when `msg.settings`
is present and truthy, else `none`. -/
structure WireMsg where
  raw : String
  action : WireAction
  settingsJson : Option String
  deriving Repr, DecidableEq

/-- The per-session snapshot (`sessionState` map values).  The source
field names are `settings`, `show`, `showTicker`, `overlayVisible`,
`tickerVisible`; `show` is a Lean keyword, hence `showPayload` /
`showTickerPayload` here. -/
structure StateSnapshot where
  settings : Option String
  showPayload : Option String
  showTickerPayload : Option String
  overlayVisible : Bool
  tickerVisible : Bool
  deriving Repr, DecidableEq

/-- The fresh snapshot installed by `getState` for an unknown session. -/
def initialSnapshot : StateSnapshot :=
  { settings := none, showPayload := none, showTickerPayload := none,
    overlayVisible := false, tickerVisible := false }

/-- The state mutation performed by the `ws.on('message')` handler for
one message (the `atem-*` and unrecognized actions leave the snapshot
untouched). -/
def applyMsg (st : StateSnapshot) (m : WireMsg) : StateSnapshot :=
  match m.action with
  | .settings => { st with settings := some m.raw }
  | .showOverlay =>
      { st with
        showPayload := some m.raw,
        settings :=
          match m.settingsJson with
          | some s => some s
          | none => st.settings,
        overlayVisible := true }
  | .clear => { st with overlayVisible := false }
  | .showTicker =>
      { st with showTickerPayload := some m.raw, tickerVisible := true }
  | .clearTicker => { st with tickerVisible := false }
  | _ => st

/-- A whole trace of messages applied in arrival order. -/
def applyMsgs (st : StateSnapshot) (ms : List WireMsg) : StateSnapshot :=
  ms.foldl applyMsg st

def optToList : Option String → List String
  | some s => [s]
  | none => []

/-- The messages proactively sent to a newly connected `role=output`
client, in source order: cached settings, then cached show, then
cached show-ticker, each only if non-null (visibility flags are not
consulted). -/
def replayOnJoin (st : StateSnapshot) : List String :=
  optToList st.settings ++ optToList st.showPayload ++ optToList st.showTickerPayload

theorem applyMsg_showPayload (st : StateSnapshot) (m : WireMsg) :
    (applyMsg st m).showPayload
      = if m.action = .showOverlay then some m.raw else st.showPayload := by
  obtain ⟨raw, act, sj⟩ := m
  cases act <;> simp [applyMsg]

theorem applyMsg_showTickerPayload (st : StateSnapshot) (m : WireMsg) :
    (applyMsg st m).showTickerPayload
      = if m.action = .showTicker then some m.raw else st.showTickerPayload := by
  obtain ⟨raw, act, sj⟩ := m
  cases act <;> simp [applyMsg]

theorem applyMsg_settings (st : StateSnapshot) (m : WireMsg) :
    (applyMsg st m).settings
      = if m.action = .settings then some m.raw
        else if m.action = .showOverlay then
          (match m.settingsJson with
           | some s => some s
           | none => st.settings)
        else st.settings := by
  obtain ⟨raw, act, sj⟩ := m
  cases act <;> simp [applyMsg]

theorem applyMsgs_showPayload_provenance : ∀ (ms : List WireMsg)
    (st : StateSnapshot) (r : String),
    (applyMsgs st ms).showPayload = some r →
    (∃ m ∈ ms, m.action = .showOverlay ∧ m.raw = r) ∨ st.showPayload = some r
  | [], _, _, h => .inr h
  | m :: ms, st, r, h => by
      rcases applyMsgs_showPayload_provenance ms (applyMsg st m) r h with h1 | h1
      · obtain ⟨m', hm', hact, hraw⟩ := h1
        exact .inl ⟨m', List.mem_cons_of_mem _ hm', hact, hraw⟩
      · rw [applyMsg_showPayload] at h1
        by_cases hact : m.action = .showOverlay
        · rw [if_pos hact] at h1
          exact .inl ⟨m, List.mem_cons_self _ _, hact, by injection h1⟩
        · rw [if_neg hact] at h1
          exact .inr h1

theorem applyMsgs_showTicker_provenance : ∀ (ms : List WireMsg)
    (st : StateSnapshot) (r : String),
    (applyMsgs st ms).showTickerPayload = some r →
    (∃ m ∈ ms, m.action = .showTicker ∧ m.raw = r) ∨ st.showTickerPayload = some r
  | [], _, _, h => .inr h
  | m :: ms, st, r, h => by
      rcases applyMsgs_showTicker_provenance ms (applyMsg st m) r h with h1 | h1
      · obtain ⟨m', hm', hact, hraw⟩ := h1
        exact .inl ⟨m', List.mem_cons_of_mem _ hm', hact, hraw⟩
      · rw [applyMsg_showTickerPayload] at h1
        by_cases hact : m.action = .showTicker
        · rw [if_pos hact] at h1
          exact .inl ⟨m, List.mem_cons_self _ _, hact, by injection h1⟩
        · rw [if_neg hact] at h1
          exact .inr h1

theorem applyMsgs_settings_provenance : ∀ (ms : List WireMsg)
    (st : StateSnapshot) (r : String),
    (applyMsgs st ms).settings = some r →
    (∃ m ∈ ms, m.action = .settings ∧ m.raw = r) ∨
    (∃ m ∈ ms, m.action = .showOverlay ∧ m.settingsJson = some r) ∨
    st.settings = some r
  | [], _, _, h => .inr (.inr h)
  | m :: ms, st, r, h => by
      rcases applyMsgs_settings_provenance ms (applyMsg st m) r h with h1 | h1 | h1
      · obtain ⟨m', hm', hact, hraw⟩ := h1
        exact .inl ⟨m', List.mem_cons_of_mem _ hm', hact, hraw⟩
      · obtain ⟨m', hm', hact, hjson⟩ := h1
        exact .inr (.inl ⟨m', List.mem_cons_of_mem _ hm', hact, hjson⟩)
      · rw [applyMsg_settings] at h1
        by_cases hs : m.action = .settings
        · rw [if_pos hs] at h1
          exact .inl ⟨m, List.mem_cons_self _ _, hs, by injection h1⟩
        · rw [if_neg hs] at h1
          by_cases hso : m.action = .showOverlay
          · rw [if_pos hso] at h1
            cases hjson : m.settingsJson with
            | some s =>
                rw [hjson] at h1
                exact .inr (.inl ⟨m, List.mem_cons_self _ _, hso,
                  by rw [hjson]; injection h1 with h1; rw [h1]⟩)
            | none =>
                rw [hjson] at h1
                exact .inr (.inr h1)
          · rw [if_neg hso] at h1
            exact .inr (.inr h1)

/-- A `settings` message as sent by a control client
(`JSON.stringify` braces written as escapes). -/
def settingsMsgDemo : WireMsg :=
  { raw := "\x7b\"action\":\"settings\",\"settings\":\x7b\"style\":\"classic\"\x7d\x7d",
    action := .settings,
    settingsJson := some "\x7b\"style\":\"classic\"\x7d" }

/-- A `show` message without an embedded settings document. -/
def showMsgDemo : WireMsg :=
  { raw := "\x7b\"action\":\"show\",\"data\":\x7b\"line1\":\"John 3:16\"\x7d\x7d",
    action := .showOverlay,
    settingsJson := none }

/-- A `show` message carrying an embedded `settings` object; for this
message `JSON.stringify(msg.settings)` yields the sub-object
serialization, which is not the raw message string. -/
def showWithSettingsMsg : WireMsg :=
  { raw := "\x7b\"action\":\"show\",\"settings\":\x7b\"style\":\"classic\"\x7d,\"data\":\x7b\"line1\":\"John 3:16\"\x7d\x7d",
    action := .showOverlay,
    settingsJson := some "\x7b\"style\":\"classic\"\x7d" }

def clearMsgDemo : WireMsg :=
  { raw := "\x7b\"action\":\"clear\"\x7d", action := .clear, settingsJson := none }

def tickerMsgDemo : WireMsg :=
  { raw := "\x7b\"action\":\"show-ticker\",\"data\":\x7b\"text\":\"Welcome\"\x7d\x7d",
    action := .showTicker, settingsJson := none }

def clearTickerMsgDemo : WireMsg :=
  { raw := "\x7b\"action\":\"clear-ticker\"\x7d", action := .clearTicker, settingsJson := none }

/-- C3 counterexample: after a single `show` message that carries an
embedded `settings` object, the replay sent to a new output client
starts with the re-serialized settings sub-object — a string that is
not byte-identical to any message the control client sent.  So the
claim that every replayed message is byte-identical to an originally
sent message fails on this input. -/
theorem output_replay_counterexample :
    replayOnJoin (applyMsgs initialSnapshot [showWithSettingsMsg])
      = ["\x7b\"style\":\"classic\"\x7d", showWithSettingsMsg.raw] ∧
    "\x7b\"style\":\"classic\"\x7d" ∉ [showWithSettingsMsg].map WireMsg.raw := by
  refine ⟨rfl, ?_⟩
  simp only [List.map_cons, List.map_nil, List.mem_singleton]
  decide

/-- C3 (amended): a new `role=output` connection is proactively sent
the cached settings (if present), then the cached show (if present,
regardless of the visibility flags), then the cached show-ticker (if
present), in that order.  The replayed show and show-ticker strings
are byte-identical to the client message that cached them; the
replayed settings string is byte-identical to the last `settings`
message, unless the cache was last written by a `show` message with an
embedded settings object, in which case it is that sub-object's
serialization. -/
theorem output_replay_spec (ms : List WireMsg) (s x tk : String) :
    (∀ (st : StateSnapshot) (b b' : Bool),
      replayOnJoin { st with overlayVisible := b, tickerVisible := b' }
        = replayOnJoin st) ∧
    (∀ st : StateSnapshot, st.settings = some s → st.showPayload = some x →
      st.showTickerPayload = some tk → replayOnJoin st = [s, x, tk]) ∧
    ((applyMsgs initialSnapshot ms).showPayload = some x →
      ∃ m ∈ ms, m.action = .showOverlay ∧ m.raw = x) ∧
    ((applyMsgs initialSnapshot ms).showTickerPayload = some tk →
      ∃ m ∈ ms, m.action = .showTicker ∧ m.raw = tk) ∧
    ((applyMsgs initialSnapshot ms).settings = some s →
      (∃ m ∈ ms, m.action = .settings ∧ m.raw = s) ∨
      (∃ m ∈ ms, m.action = .showOverlay ∧ m.settingsJson = some s)) := by
  refine ⟨?_, ?_, ?_, ?_, ?_⟩
  · intro st b b'; rfl
  · intro st h1 h2 h3
    simp [replayOnJoin, h1, h2, h3, optToList]
  · intro h
    rcases applyMsgs_showPayload_provenance ms initialSnapshot x h with h1 | h1
    · exact h1
    · simp [initialSnapshot] at h1
  · intro h
    rcases applyMsgs_showTicker_provenance ms initialSnapshot tk h with h1 | h1
    · exact h1
    · simp [initialSnapshot] at h1
  · intro h
    rcases applyMsgs_settings_provenance ms initialSnapshot s h with h1 | h1 | h1
    · exact .inl h1
    · exact .inr h1
    · simp [initialSnapshot] at h1

/-- Witness for `output_replay_spec`: the end-to-end scenario — a
`settings` message, a `show` message and a `show-ticker` message on a
session, then an output join; the replay is exactly the three raw
strings in order, and the show payload is traced back to the `show`
message. -/
theorem output_replay_spec_witness :
    replayOnJoin (applyMsgs initialSnapshot [settingsMsgDemo, showMsgDemo, tickerMsgDemo])
      = [settingsMsgDemo.raw, showMsgDemo.raw, tickerMsgDemo.raw] ∧
    (∃ m ∈ [settingsMsgDemo, showMsgDemo, tickerMsgDemo],
      m.action = .showOverlay ∧ m.raw = showMsgDemo.raw) :=
  ⟨(output_replay_spec [settingsMsgDemo, showMsgDemo, tickerMsgDemo]
      settingsMsgDemo.raw showMsgDemo.raw tickerMsgDemo.raw).2.1
      (applyMsgs initialSnapshot [settingsMsgDemo, showMsgDemo, tickerMsgDemo])
      rfl rfl rfl,
   (output_replay_spec [settingsMsgDemo, showMsgDemo, tickerMsgDemo]
      settingsMsgDemo.raw showMsgDemo.raw tickerMsgDemo.raw).2.2.1 rfl⟩

theorem applyMsgs_show_frame : ∀ (ms : List WireMsg) (st : StateSnapshot),
    (∀ m ∈ ms, m.action ≠ .showOverlay) →
    (applyMsgs st ms).showPayload = st.showPayload
  | [], _, _ => rfl
  | m :: ms, st, h => by
      have h1 := applyMsgs_show_frame ms (applyMsg st m)
        (fun m' hm' => h m' (List.mem_cons_of_mem _ hm'))
      have h2 : applyMsgs st (m :: ms) = applyMsgs (applyMsg st m) ms := rfl
      rw [h2, h1, applyMsg_showPayload, if_neg (h m (List.mem_cons_self _ _))]

/-- C4: after a `show` message `x` followed by any number of `clear`
messages, the cached overlay payload still equals `x.raw` (`clear`
only toggles visibility), the raw show string is still contained in
the replay sent to a newly joining output client, and no action other
than `show` ever overwrites the cached overlay payload. -/
theorem clear_does_not_erase_spec (st0 : StateSnapshot) (x : WireMsg)
    (hx : x.action = .showOverlay) (ms : List WireMsg)
    (hms : ∀ m ∈ ms, m.action = .clear) :
    (applyMsgs (applyMsg st0 x) ms).showPayload = some x.raw ∧
    x.raw ∈ replayOnJoin (applyMsgs (applyMsg st0 x) ms) ∧
    (∀ (st : StateSnapshot) (m : WireMsg), m.action ≠ .showOverlay →
      (applyMsg st m).showPayload = st.showPayload) := by
  have hshow : (applyMsgs (applyMsg st0 x) ms).showPayload = some x.raw := by
    rw [applyMsgs_show_frame ms (applyMsg st0 x)
      (fun m hm => by rw [hms m hm]; exact fun hc => by cases hc)]
    rw [applyMsg_showPayload, if_pos hx]
  refine ⟨hshow, ?_, ?_⟩
  · have hmem : x.raw ∈ optToList (applyMsgs (applyMsg st0 x) ms).showPayload := by
      rw [hshow]; exact List.mem_singleton.mpr rfl
    exact List.mem_append.mpr (.inl (List.mem_append.mpr (.inr hmem)))
  · intro st m hm
    rw [applyMsg_showPayload, if_neg hm]

/-- Witness for `clear_does_not_erase_spec`: `show(X)` then two
`clear`s still caches and replays `X`. -/
theorem clear_does_not_erase_spec_witness :
    (applyMsgs (applyMsg initialSnapshot showMsgDemo) [clearMsgDemo, clearMsgDemo]).showPayload
      = some showMsgDemo.raw ∧
    showMsgDemo.raw ∈ replayOnJoin
      (applyMsgs (applyMsg initialSnapshot showMsgDemo) [clearMsgDemo, clearMsgDemo]) :=
  ⟨(clear_does_not_erase_spec initialSnapshot showMsgDemo rfl [clearMsgDemo, clearMsgDemo]
      (by decide)).1,
   (clear_does_not_erase_spec initialSnapshot showMsgDemo rfl [clearMsgDemo, clearMsgDemo]
      (by decide)).2.1⟩

/-- A snapshot whose settings cache was populated by an earlier
`settings` message. -/
def priorState : StateSnapshot :=
  { settings := some "\x7b\"action\":\"settings\",\"settings\":\x7b\"style\":\"modern\"\x7d\x7d",
    showPayload := none, showTickerPayload := none,
    overlayVisible := false, tickerVisible := false }

/-- C5 counterexample: a `show` message carrying an embedded settings
object also mutates the `settings` field of the snapshot, so `show`
does not mutate only the overlay payload and `overlayVisible`. -/
theorem action_frame_counterexample :
    (applyMsg priorState showWithSettingsMsg).settings ≠ priorState.settings := by
  simp only [applyMsg, priorState, showWithSettingsMsg]
  decide

/-- C5 (amended): each wire action mutates only the snapshot fields
that name it — `settings` only the settings field; `clear` only
`overlayVisible`; `show-ticker` only the ticker payload and
`tickerVisible`; `clear-ticker` only `tickerVisible`; and `show`
mutates the overlay payload and `overlayVisible` and, exactly when the
message carries an embedded settings object, also the settings field
(set to that object's serialization). -/
theorem action_frame_spec (st : StateSnapshot) (m : WireMsg) :
    (m.action = .settings →
      (applyMsg st m).showPayload = st.showPayload ∧
      (applyMsg st m).showTickerPayload = st.showTickerPayload ∧
      (applyMsg st m).overlayVisible = st.overlayVisible ∧
      (applyMsg st m).tickerVisible = st.tickerVisible) ∧
    (m.action = .showOverlay →
      (applyMsg st m).showTickerPayload = st.showTickerPayload ∧
      (applyMsg st m).tickerVisible = st.tickerVisible ∧
      (m.settingsJson = none → (applyMsg st m).settings = st.settings) ∧
      (∀ s, m.settingsJson = some s → (applyMsg st m).settings = some s)) ∧
    (m.action = .clear →
      (applyMsg st m).settings = st.settings ∧
      (applyMsg st m).showPayload = st.showPayload ∧
      (applyMsg st m).showTickerPayload = st.showTickerPayload ∧
      (applyMsg st m).tickerVisible = st.tickerVisible) ∧
    (m.action = .showTicker →
      (applyMsg st m).settings = st.settings ∧
      (applyMsg st m).showPayload = st.showPayload ∧
      (applyMsg st m).overlayVisible = st.overlayVisible) ∧
    (m.action = .clearTicker →
      (applyMsg st m).settings = st.settings ∧
      (applyMsg st m).showPayload = st.showPayload ∧
      (applyMsg st m).showTickerPayload = st.showTickerPayload ∧
      (applyMsg st m).overlayVisible = st.overlayVisible) := by
  obtain ⟨raw, act, sj⟩ := m
  refine ⟨?_, ?_, ?_, ?_, ?_⟩ <;>
    (intro h; simp only at h; subst h; simp [applyMsg]; try (cases sj <;> simp))

/-- Witness for `action_frame_spec`: the frame conditions evaluated at
a concrete snapshot and one concrete message of each action kind. -/
theorem action_frame_spec_witness :
    (applyMsg priorState settingsMsgDemo).showPayload = priorState.showPayload ∧
    (applyMsg priorState showMsgDemo).settings = priorState.settings ∧
    (applyMsg priorState clearMsgDemo).settings = priorState.settings ∧
    (applyMsg priorState tickerMsgDemo).showPayload = priorState.showPayload ∧
    (applyMsg priorState clearTickerMsgDemo).showTickerPayload
      = priorState.showTickerPayload :=
  ⟨((action_frame_spec priorState settingsMsgDemo).1 rfl).1,
   ((action_frame_spec priorState showMsgDemo).2.1 rfl).2.2.1 rfl,
   ((action_frame_spec priorState clearMsgDemo).2.2.1 rfl).1,
   ((action_frame_spec priorState tickerMsgDemo).2.2.2.1 rfl).2.1,
   ((action_frame_spec priorState clearTickerMsgDemo).2.2.2.2 rfl).2.2.1⟩

/-! ## ExportScheduler: `schedulePngExport`

Per-session debounce and single-flight control:

```js
function schedulePngExport(sessionId) {
  if (!ATEM_PNG_EXPORT_ENABLED) return;
  if (!shouldExportSession(sessionId)) return;
  const exp = getExportSession(sessionId);
  if (exp.timer) clearTimeout(exp.timer);
  exp.timer = setTimeout(async () => {
    exp.timer = null;
    if (exp.running) { exp.queued = true; return; }
    exp.running = true;
    try { await renderPngExport(sessionId); }
    catch (err) { ... }
    finally {
      exp.running = false;
      if (exp.queued) { exp.queued = false; schedulePngExport(sessionId); }
    }
  }, 35);
}
```

The timing abstraction: `trigger` is a `schedulePngExport` call for an
enabled, enrolled session (setting or resetting the 35 ms timer),
`fire` is the timer callback running, `complete` is the `finally`
block of an in-flight render.  `inFlight` counts renders currently
executing and `started` counts renders ever started, so mutual
exclusion and exactly-once rendering are expressible.
-/

/-- The debounce delay passed to `setTimeout`, in milliseconds. -/
def debounceMs : Nat := 35

/-- One session's export job record (`exportSessions` map value);
`timer` abstracts the nullable timeout handle. -/
structure ExportJob where
  timer : Bool
  running : Bool
  queued : Bool
  deriving Repr, DecidableEq

def idleJob : ExportJob := { timer := false, running := false, queued := false }

/-- Scheduler state instrumented with render counters. -/
structure SchedState where
  job : ExportJob
  inFlight : Nat
  started : Nat
  deriving Repr, DecidableEq

def schedInit : SchedState := { job := idleJob, inFlight := 0, started := 0 }

inductive SchedEv where
  | trigger
  | fire
  | complete
  deriving Repr, DecidableEq

/-- One scheduler step.  `fire` requires a pending timer and
`complete` an in-flight render (`none` otherwise: those callbacks
cannot run in that state). -/
def schedStep (s : SchedState) : SchedEv → Option SchedState
  | .trigger =>
      some { s with job := { s.job with timer := true } }
  | .fire =>
      if s.job.timer then
        if s.job.running then
          some { s with job := { s.job with timer := false, queued := true } }
        else
          some { s with
            job := { s.job with timer := false, running := true },
            inFlight := s.inFlight + 1,
            started := s.started + 1 }
      else none
  | .complete =>
      if s.job.running then
        some { s with
          job := { timer := s.job.timer || s.job.queued,
                   running := false, queued := false },
          inFlight := s.inFlight - 1 }
      else none

/-- Run a sequence of scheduler events. -/
def schedRun (s : SchedState) : List SchedEv → Option SchedState
  | [] => some s
  | e :: evs =>
      match schedStep s e with
      | some s' => schedRun s' evs
      | none => none

/-- The single-flight invariant: the in-flight count mirrors the
`running` flag. -/
def SchedInv (s : SchedState) : Prop :=
  s.inFlight = if s.job.running then 1 else 0

theorem schedStep_inv {s s' : SchedState} (hs : SchedInv s) (e : SchedEv)
    (h : schedStep s e = some s') : SchedInv s' := by
  cases e with
  | trigger =>
      simp only [schedStep] at h
      cases h
      exact hs
  | fire =>
      simp only [schedStep] at h
      by_cases ht : s.job.timer
      · rw [if_pos ht] at h
        by_cases hr : s.job.running
        · rw [if_pos hr] at h
          cases h
          simpa [SchedInv, hr] using hs
        · rw [if_neg hr] at h
          cases h
          simp only [SchedInv] at hs ⊢
          simp [hr] at hs
          simp [hs]
      · rw [if_neg ht] at h; cases h
  | complete =>
      simp only [schedStep] at h
      by_cases hr : s.job.running
      · rw [if_pos hr] at h
        cases h
        simp only [SchedInv] at hs ⊢
        simp [hr] at hs
        simp [hs]
      · rw [if_neg hr] at h; cases h

theorem schedRun_inv : ∀ (evs : List SchedEv) {s s' : SchedState},
    SchedInv s → schedRun s evs = some s' → SchedInv s'
  | [], _, _, hs, h => by cases h; exact hs
  | e :: evs, s, s', hs, h => by
      simp only [schedRun] at h
      cases he : schedStep s e with
      | none => rw [he] at h; cases h
      | some s1 =>
          rw [he] at h
          exact schedRun_inv evs (schedStep_inv hs e he) h

theorem schedRun_append : ∀ (l1 l2 : List SchedEv) (s : SchedState),
    schedRun s (l1 ++ l2) = (schedRun s l1).bind (fun s1 => schedRun s1 l2)
  | [], _, _ => rfl
  | e :: l1, l2, s => by
      simp only [List.cons_append, schedRun]
      cases schedStep s e with
      | none => rfl
      | some s1 => exact schedRun_append l1 l2 s1

theorem schedRun_triggers : ∀ (n : Nat) (s : SchedState), 0 < n →
    schedRun s (List.replicate n .trigger)
      = some { s with job := { s.job with timer := true } }
  | 1, s, _ => rfl
  | n + 2, s, _ => by
      have ih := schedRun_triggers (n + 1) { s with job := { s.job with timer := true } }
        (Nat.succ_pos n)
      simpa [List.replicate, schedRun, schedStep] using ih

/-- C2: the export scheduler gives per-session single-flight rendering:
(a) the debounce delay is 35 ms and every trigger (re)sets the timer;
(b) in every reachable scheduler state at most one render is in flight;
(c) if the timer fires while a render is running, the step only sets
`queued` and starts no new render (`started` and `inFlight` are
unchanged); (d) when a running render completes with `queued` set,
`queued` is cleared and the job is re-triggered (timer set again); and
(e) a burst of `n ≥ 1` rapid triggers whose single coalesced timer
firing is followed by the render completing ends idle with exactly one
render started — the burst is rendered exactly once. -/
theorem schedule_png_export_spec :
    (debounceMs = 35 ∧ ∀ s : SchedState,
      schedStep s .trigger = some { s with job := { s.job with timer := true } }) ∧
    (∀ (evs : List SchedEv) (s : SchedState),
      schedRun schedInit evs = some s → s.inFlight ≤ 1) ∧
    (∀ s : SchedState, s.job.timer = true → s.job.running = true →
      schedStep s .fire = some { s with
        job := { s.job with timer := false, queued := true } }) ∧
    (∀ s : SchedState, s.job.running = true → s.job.queued = true →
      schedStep s .complete = some { s with
        job := { timer := true, running := false, queued := false },
        inFlight := s.inFlight - 1 }) ∧
    (∀ n : Nat, 0 < n →
      schedRun schedInit (List.replicate n .trigger ++ [.fire, .complete])
        = some { job := idleJob, inFlight := 0, started := 1 }) := by
  refine ⟨⟨rfl, fun s => rfl⟩, ?_, ?_, ?_, ?_⟩
  · intro evs s h
    have hinv := schedRun_inv evs (by simp [SchedInv, schedInit, idleJob]) h
    rw [SchedInv] at hinv
    split at hinv <;> omega
  · intro s ht hr
    simp [schedStep, ht, hr]
  · intro s hr hq
    simp [schedStep, hr, hq]
  · intro n hn
    rw [schedRun_append, schedRun_triggers n schedInit hn]
    rfl

/-- Witness for `schedule_png_export_spec`: a burst of three triggers
followed by the timer firing and the render completing yields exactly
one started render and an idle job. -/
theorem schedule_png_export_spec_witness :
    schedRun schedInit (List.replicate 3 .trigger ++ [.fire, .complete])
      = some { job := idleJob, inFlight := 0, started := 1 } :=
  schedule_png_export_spec.2.2.2.2 3 (by decide)

/-! ## Export enrollment: `shouldExportSession` and session pinning

```js
function normalizeSessionId(value) {
  const s = String(value || '').trim();
  return s || 'default';
}

function shouldExportSession(sessionId) {
  if (!atemPngPinnedSessions.size) return true;
  return atemPngPinnedSessions.has(normalizeSessionId(sessionId));
}
```

and in the `atem-export-config` handler:

```js
const requestedSessionId = normalizeSessionId(msg.sessionId || sessionId || 'default');
if (requestedPin) atemPngPinnedSessions.add(requestedSessionId);
else atemPngPinnedSessions.delete(requestedSessionId);
```

The JS `Set` is modelled as a duplicate-free list in insertion order
(`add` appends when absent, `delete` removes).
-/

/-- JavaScript `String.prototype.trim`: drop whitespace from both ends
(modelled on the character list so it is kernel-evaluable). -/
def jsTrim (value : String) : String :=
  String.mk (((value.data.dropWhile Char.isWhitespace).reverse.dropWhile
    Char.isWhitespace).reverse)

def normalizeSessionId (value : String) : String :=
  let s := jsTrim value
  if s = "" then "default" else s

def shouldExportSession (pinned : List String) (sessionId : String) : Bool :=
  if pinned.isEmpty then true
  else pinned.contains (normalizeSessionId sessionId)

/-- The pinned-set mutation performed by the `atem-export-config`
handler: `add` on pin, `delete` on unpin (already-normalized id). -/
def applyExportConfigPin (pinned : List String) (pin : Bool) (req : String) : List String :=
  if pin then (if pinned.contains req then pinned else pinned ++ [req])
  else pinned.filter (fun s => s ≠ req)

/-- C10: export enrollment is universal when the pinned set is empty
and exact-membership otherwise, and unpinning the last remaining
pinned session switches enrollment back to every session (not to
none): (a) with an empty pinned set every session is enrolled;
(b) with a non-empty pinned set, a session is enrolled iff its
normalized id is a member; (c) an `atem-export-config` unpin whose
normalized requested id is the single pinned entry empties the set,
after which every session is enrolled. -/
theorem should_export_session_spec (s x req : String) (pinned : List String) :
    (shouldExportSession [] s = true) ∧
    (pinned ≠ [] →
      (shouldExportSession pinned s = true ↔ normalizeSessionId s ∈ pinned)) ∧
    (normalizeSessionId req = x →
      applyExportConfigPin [x] false (normalizeSessionId req) = [] ∧
      shouldExportSession (applyExportConfigPin [x] false (normalizeSessionId req)) s
        = true) := by
  refine ⟨rfl, ?_, ?_⟩
  · intro hne
    simp [shouldExportSession, List.isEmpty_iff, hne]
  · intro hx
    rw [hx]
    constructor
    · simp [applyExportConfigPin]
    · simp [applyExportConfigPin, shouldExportSession]

/-- Witness for `should_export_session_spec`: pinned set `["demo"]`,
then an unpin of `"demo"`; afterwards an unrelated session `"other"`
is enrolled again. -/
theorem should_export_session_spec_witness :
    (shouldExportSession ["demo"] "other" = true ↔
      normalizeSessionId "other" ∈ ["demo"]) ∧
    applyExportConfigPin ["demo"] false (normalizeSessionId "demo") = [] ∧
    shouldExportSession
      (applyExportConfigPin ["demo"] false (normalizeSessionId "demo")) "other" = true :=
  ⟨(should_export_session_spec "other" "demo" "demo" ["demo"]).2.1 (by decide),
   ((should_export_session_spec "other" "demo" "demo" ["demo"]).2.2 (by decide)).1,
   ((should_export_session_spec "other" "demo" "demo" ["demo"]).2.2 (by decide)).2⟩

/-! ## SessionRegistry: rooms, state and export-job lifecycle

The server keeps three session-keyed maps —
`rooms : Map<sessionId, Set<WebSocket>>`,
`sessionState : Map<sessionId, snapshot>` and
`exportSessions : Map<sessionId, job>` — mutated by `joinRoom`,
`leaveRoom`, `clearExportSession`, `getState`, `getExportSession` and
the message handler.  The JS `Map`s are modelled as insertion-ordered
association lists with distinct keys and the WebSocket objects as
numeric client ids.
-/

def getEntry {α : Type} : List (String × α) → String → Option α
  | [], _ => none
  | (k', v) :: t, k => if k' = k then some v else getEntry t k

def setEntry {α : Type} : List (String × α) → String → α → List (String × α)
  | [], k, v => [(k, v)]
  | (k', v') :: t, k, v =>
      if k' = k then (k, v) :: t else (k', v') :: setEntry t k v

theorem getEntry_mem {α : Type} : ∀ (l : List (String × α)) (k : String) (v : α),
    getEntry l k = some v → (k, v) ∈ l
  | [], _, _, h => by cases h
  | (k', v') :: t, k, v, h => by
      simp only [getEntry] at h
      by_cases hk : k' = k
      · rw [if_pos hk] at h
        injection h with h
        subst hk; subst h
        exact List.mem_cons_self _ _
      · rw [if_neg hk] at h
        exact List.mem_cons_of_mem _ (getEntry_mem t k v h)

theorem getEntry_none_iff {α : Type} : ∀ (l : List (String × α)) (k : String),
    getEntry l k = none ↔ k ∉ l.map Prod.fst
  | [], k => by simp [getEntry]
  | (k', v') :: t, k => by
      simp only [getEntry, List.map_cons, List.mem_cons]
      by_cases hk : k' = k
      · simp [hk]
      · simp only [if_neg hk]
        rw [getEntry_none_iff t k]
        constructor
        · intro h hc
          rcases hc with hc | hc
          · exact hk hc.symm
          · exact h hc
        · intro h
          exact fun hc => h (.inr hc)

theorem getEntry_eq_of_mem_nodup {α : Type} : ∀ (l : List (String × α))
    (k : String) (v : α), (l.map Prod.fst).Nodup → (k, v) ∈ l →
    getEntry l k = some v
  | [], _, _, _, hm => by cases hm
  | (k', v') :: t, k, v, hnd, hm => by
      simp only [List.map_cons, List.nodup_cons] at hnd
      rcases List.mem_cons.mp hm with hm | hm
      · injection hm with h1 h2
        subst h1; subst h2
        simp [getEntry]
      · have hk : k' ≠ k := by
          intro hc
          subst hc
          exact hnd.1 (List.mem_map.mpr ⟨(k', v), hm, rfl⟩)
        simp only [getEntry, if_neg hk]
        exact getEntry_eq_of_mem_nodup t k v hnd.2 hm

theorem mem_setEntry {α : Type} : ∀ (l : List (String × α)) (k : String)
    (v : α) (p : String × α), p ∈ setEntry l k v → p = (k, v) ∨ p ∈ l
  | [], k, v, p, h => by
      simp only [setEntry, List.mem_singleton] at h
      exact .inl h
  | (k', v') :: t, k, v, p, h => by
      simp only [setEntry] at h
      by_cases hk : k' = k
      · rw [if_pos hk] at h
        rcases List.mem_cons.mp h with h | h
        · exact .inl h
        · exact .inr (List.mem_cons_of_mem _ h)
      · rw [if_neg hk] at h
        rcases List.mem_cons.mp h with h | h
        · exact .inr (h ▸ List.mem_cons_self _ _)
        · rcases mem_setEntry t k v p h with h | h
          · exact .inl h
          · exact .inr (List.mem_cons_of_mem _ h)

theorem setEntry_keys {α : Type} : ∀ (l : List (String × α)) (k : String) (v : α),
    (setEntry l k v).map Prod.fst
      = if (getEntry l k).isSome then l.map Prod.fst
        else l.map Prod.fst ++ [k]
  | [], k, v => by simp [setEntry, getEntry]
  | (k', v') :: t, k, v => by
      simp only [setEntry, getEntry]
      by_cases hk : k' = k
      · simp [hk]
      · simp only [if_neg hk, List.map_cons]
        rw [setEntry_keys t k v]
        by_cases hs : (getEntry t k).isSome
        · simp [hs]
        · simp [hs]

theorem getEntry_filter_none {α : Type} : ∀ (l : List (String × α))
    (P : String × α → Bool) (k : String),
    (∀ v : α, (k, v) ∈ l → P (k, v) = false) →
    getEntry (l.filter P) k = none
  | [], _, _, _ => rfl
  | (k', v') :: t, P, k, h => by
      have ih := getEntry_filter_none t P k
        (fun v hv => h v (List.mem_cons_of_mem _ hv))
      by_cases hk : k' = k
      · subst hk
        have hp : P (k', v') = false := h v' (List.mem_cons_self _ _)
        simp only [List.filter_cons, hp]
        exact ih
      · simp only [List.filter_cons]
        cases hp : P (k', v') with
        | true =>
            simp only [getEntry, if_neg hk]
            exact ih
        | false => exact ih

/-- The server's three session-keyed maps plus the mutable pinned set. -/
structure ServerState where
  rooms : List (String × List Nat)
  sessionState : List (String × StateSnapshot)
  exportSessions : List (String × ExportJob)
  pinned : List String
  deriving Repr, DecidableEq

/-- Fresh server: no rooms, no cached state, no export jobs; the pinned
set starts from the environment configuration. -/
def serverInit (pinned0 : List String) : ServerState :=
  { rooms := [], sessionState := [], exportSessions := [], pinned := pinned0 }

/-- `joinRoom(sessionId, ws)`: create the room set if missing and add
the socket (`Set.add` is a no-op for an already-present member). -/
def joinRoom (sid : String) (cid : Nat)
    (rooms : List (String × List Nat)) : List (String × List Nat) :=
  match getEntry rooms sid with
  | none => rooms ++ [(sid, [cid])]
  | some cs => setEntry rooms sid (if cid ∈ cs then cs else cs ++ [cid])

/-- `leaveRoom(ws)`: remove the socket from every room; every room that
becomes empty is deleted together with its `sessionState` entry
(`sessionState.delete(id)`) and its export job
(`clearExportSession(id)`: timer cleared, flags dropped, context
closed, map entry deleted). -/
def leaveRoomS (cid : Nat) (st : ServerState) : ServerState :=
  let removed := st.rooms.map (fun p => (p.1, p.2.filter (fun c => c ≠ cid)))
  let emptied := (removed.filter (fun p => p.2.isEmpty)).map Prod.fst
  { st with
    rooms := removed.filter (fun p => !p.2.isEmpty),
    sessionState := st.sessionState.filter (fun p => !(decide (p.1 ∈ emptied))),
    exportSessions := st.exportSessions.filter (fun p => !(decide (p.1 ∈ emptied))) }

/-- `getExportSession` read side: the stored job or a fresh idle one. -/
def getExportJob (st : ServerState) (sid : String) : ExportJob :=
  (getEntry st.exportSessions sid).getD idleJob

/-- `schedulePngExport(sessionId)` as seen by the session maps: bail
out when export is disabled or the session is not enrolled, otherwise
create the job entry on demand and (re)arm its debounce timer. -/
def schedulePngExportS (enabled : Bool) (sid : String) (st : ServerState) : ServerState :=
  if enabled && shouldExportSession st.pinned sid then
    { st with
      exportSessions := setEntry st.exportSessions sid
        { getExportJob st sid with timer := true } }
  else st

/-- The `ws.on('message')` handler for a parsed message from a client
of session `sid`: `getState` always materializes the snapshot entry,
the action-specific mutation is `applyMsg`, the `atem-export-*`
actions mutate the pinned set and/or schedule an export for the
*requested* session id, and the five state actions schedule an export
for the sender's session. -/
def handleMessage (enabled : Bool) (sid : String) (m : WireMsg)
    (st : ServerState) : ServerState :=
  let snap := (getEntry st.sessionState sid).getD initialSnapshot
  let st1 := { st with sessionState := setEntry st.sessionState sid (applyMsg snap m) }
  match m.action with
  | .atemExportConfig pin target =>
      let req := normalizeSessionId (target.getD sid)
      let st2 := { st1 with pinned := applyExportConfigPin st1.pinned pin req }
      schedulePngExportS enabled req st2
  | .atemExportStatus _ => st1
  | .atemExportRefresh target =>
      schedulePngExportS enabled (normalizeSessionId (target.getD sid)) st1
  | .settings => schedulePngExportS enabled sid st1
  | .showOverlay => schedulePngExportS enabled sid st1
  | .clear => schedulePngExportS enabled sid st1
  | .showTicker => schedulePngExportS enabled sid st1
  | .clearTicker => schedulePngExportS enabled sid st1
  | .unrecognized => st1

/-- Connection-level events: a fresh socket connecting with a session
id and role, a parsed message from a connected socket, and a
disconnect (close or error — both run `leaveRoom`). -/
inductive SrvEv where
  | connect (cid : Nat) (sid : String) (isOutput : Bool)
  | message (cid : Nat) (m : WireMsg)
  | disconnect (cid : Nat)
  deriving Repr, DecidableEq

/-- The session a connected socket belongs to (the connection handler
closes over its `sessionId`). -/
def clientSession (st : ServerState) (cid : Nat) : Option String :=
  (st.rooms.find? (fun p => p.2.contains cid)).map Prod.fst

/-- One server step.  `connect` requires a fresh socket id; `message`
requires a connected sender; on `connect` with `role=output` the
replay path calls `getState`, materializing the snapshot entry. -/
def serverStep (enabled : Bool) (st : ServerState) : SrvEv → Option ServerState
  | .connect cid sid isOutput =>
      if st.rooms.any (fun p => p.2.contains cid) then none
      else
        let st1 := { st with rooms := joinRoom sid cid st.rooms }
        let snap := (getEntry st1.sessionState sid).getD initialSnapshot
        if isOutput then
          some { st1 with sessionState := setEntry st1.sessionState sid snap }
        else some st1
  | .message cid m =>
      match clientSession st cid with
      | some sid => some (handleMessage enabled sid m st)
      | none => none
  | .disconnect cid => some (leaveRoomS cid st)

def serverRun (enabled : Bool) (st : ServerState) : List SrvEv → Option ServerState
  | [] => some st
  | e :: evs =>
      match serverStep enabled st e with
      | some s' => serverRun enabled s' evs
      | none => none

/-- Well-formedness of the room registry: every registered room is
non-empty and room keys are distinct. -/
def RoomsWF (st : ServerState) : Prop :=
  (∀ p ∈ st.rooms, p.2 ≠ []) ∧ (st.rooms.map Prod.fst).Nodup

theorem schedulePngExportS_rooms (e : Bool) (sid : String) (st : ServerState) :
    (schedulePngExportS e sid st).rooms = st.rooms := by
  unfold schedulePngExportS
  split <;> rfl

theorem handleMessage_rooms (e : Bool) (sid : String) (m : WireMsg)
    (st : ServerState) : (handleMessage e sid m st).rooms = st.rooms := by
  obtain ⟨raw, act, sj⟩ := m
  cases act <;> simp [handleMessage, schedulePngExportS_rooms]

theorem joinRoom_WF (sid : String) (cid : Nat) (rooms : List (String × List Nat))
    (h1 : ∀ p ∈ rooms, p.2 ≠ []) (h2 : (rooms.map Prod.fst).Nodup) :
    (∀ p ∈ joinRoom sid cid rooms, p.2 ≠ []) ∧
    ((joinRoom sid cid rooms).map Prod.fst).Nodup := by
  unfold joinRoom
  cases hge : getEntry rooms sid with
  | none =>
      have hsid : sid ∉ rooms.map Prod.fst := (getEntry_none_iff rooms sid).mp hge
      constructor
      · intro p hp
        rcases List.mem_append.mp hp with hp | hp
        · exact h1 p hp
        · rw [List.mem_singleton.mp hp]
          simp
      · rw [List.map_append]
        simp only [List.map_cons, List.map_nil]
        rw [List.nodup_append]
        refine ⟨h2, List.nodup_singleton sid, ?_⟩
        intro a ha hb
        rw [List.mem_singleton] at hb
        subst hb
        exact hsid ha
  | some cs =>
      have hcs : cs ≠ [] := h1 _ (getEntry_mem rooms sid cs hge)
      constructor
      · intro p hp
        rcases mem_setEntry _ _ _ _ hp with hp | hp
        · rw [hp]
          by_cases hm : cid ∈ cs <;> simp [hm, hcs]
        · exact h1 p hp
      · rw [setEntry_keys, hge]
        simpa using h2

theorem leaveRoomS_WF (cid : Nat) (st : ServerState)
    (_h1 : ∀ p ∈ st.rooms, p.2 ≠ []) (h2 : (st.rooms.map Prod.fst).Nodup) :
    (∀ p ∈ (leaveRoomS cid st).rooms, p.2 ≠ []) ∧
    (((leaveRoomS cid st).rooms.map Prod.fst)).Nodup := by
  unfold leaveRoomS
  constructor
  · intro p hp
    have := (List.mem_filter.mp hp).2
    simpa [List.isEmpty_iff] using this
  · refine List.Nodup.sublist (List.Sublist.map Prod.fst (List.filter_sublist _)) ?_
    have hkeys : ((st.rooms.map
        (fun p => (p.1, p.2.filter (fun c => c ≠ cid)))).map Prod.fst)
        = st.rooms.map Prod.fst := by
      rw [List.map_map]
      rfl
    rw [hkeys]
    exact h2

theorem serverStep_WF (e : Bool) {st st' : ServerState} (ev : SrvEv)
    (h : serverStep e st ev = some st') (hwf : RoomsWF st) : RoomsWF st' := by
  cases ev with
  | connect cid sid isOutput =>
      simp only [serverStep] at h
      split at h
      · cases h
      · have hj := joinRoom_WF sid cid st.rooms hwf.1 hwf.2
        split at h <;> (cases h; exact ⟨hj.1, hj.2⟩)
  | message cid m =>
      simp only [serverStep] at h
      cases hcs : clientSession st cid with
      | none => rw [hcs] at h; cases h
      | some sid =>
          rw [hcs] at h
          cases h
          have hr := handleMessage_rooms e sid m st
          exact ⟨by rw [hr]; exact hwf.1, by rw [hr]; exact hwf.2⟩
  | disconnect cid =>
      cases h
      exact leaveRoomS_WF cid st hwf.1 hwf.2

theorem serverRun_WF (e : Bool) : ∀ (evs : List SrvEv) {st st' : ServerState},
    RoomsWF st → serverRun e st evs = some st' → RoomsWF st'
  | [], _, _, hwf, h => by cases h; exact hwf
  | ev :: evs, st, st', hwf, h => by
      simp only [serverRun] at h
      cases he : serverStep e st ev with
      | none => rw [he] at h; cases h
      | some s1 =>
          rw [he] at h
          exact serverRun_WF e evs (serverStep_WF e ev he hwf) h

theorem leaveRoom_teardown (st : ServerState) (S : String) (c : Nat)
    (cs : List Nat) (hnd : (st.rooms.map Prod.fst).Nodup)
    (hS : getEntry st.rooms S = some cs)
    (hlast : cs.filter (fun x => x ≠ c) = []) :
    getEntry (leaveRoomS c st).rooms S = none ∧
    getEntry (leaveRoomS c st).sessionState S = none ∧
    getEntry (leaveRoomS c st).exportSessions S = none := by
  have hmem : (S, cs) ∈ st.rooms := getEntry_mem _ _ _ hS
  have hmem_removed : (S, ([] : List Nat))
      ∈ st.rooms.map (fun p => (p.1, p.2.filter (fun x => x ≠ c))) := by
    refine List.mem_map.mpr ⟨(S, cs), hmem, ?_⟩
    show (S, cs.filter (fun x => x ≠ c)) = (S, [])
    rw [hlast]
  have hnd_removed : ((st.rooms.map
      (fun p => (p.1, p.2.filter (fun x => x ≠ c)))).map Prod.fst).Nodup := by
    rw [List.map_map]
    exact hnd
  have hS_emptied : S ∈ ((st.rooms.map
      (fun p => (p.1, p.2.filter (fun x => x ≠ c)))).filter
        (fun p => p.2.isEmpty)).map Prod.fst := by
    refine List.mem_map.mpr ⟨(S, []), ?_, rfl⟩
    exact List.mem_filter.mpr ⟨hmem_removed, by simp⟩
  refine ⟨?_, ?_, ?_⟩
  · apply getEntry_filter_none
    intro v hv
    have h1 := getEntry_eq_of_mem_nodup _ S v hnd_removed hv
    have h2 := getEntry_eq_of_mem_nodup _ S ([] : List Nat) hnd_removed hmem_removed
    rw [h2] at h1
    injection h1 with h1
    rw [← h1]
    rfl
  · apply getEntry_filter_none
    intro v _
    simpa using hS_emptied
  · apply getEntry_filter_none
    intro v _
    simpa using hS_emptied

/-- An `atem-export-refresh` message naming a *different* session id
than the sender's. -/
def refreshMsgDemo : WireMsg :=
  { raw := "\x7b\"action\":\"atem-export-refresh\",\"sessionId\":\"b\"\x7d",
    action := .atemExportRefresh (some "b"), settingsJson := none }

/-- The trace of the C6 counterexample: a client joins session `"a"`,
asks for an export refresh of session `"b"` (which has no clients),
then disconnects. -/
def orphanTrace : List SrvEv :=
  [.connect 1 "a" false, .message 1 refreshMsgDemo, .disconnect 1]

/-- C6 counterexample: after `orphanTrace` every client is gone and
every room is deleted, yet the export-job map still holds an entry for
session `"b"` with its debounce timer armed — an orphaned timer for a
session that has no clients and is in no room, which no disconnect
will ever clean up (`clearExportSession` only runs when a *room*
empties).  So \"no session ever keeps an orphaned StateSnapshot,
timer, or browser page\" fails on the code. -/
theorem session_registry_counterexample :
    serverRun true (serverInit []) orphanTrace
      = some { rooms := [], sessionState := [],
               exportSessions :=
                 [("b", { timer := true, running := false, queued := false })],
               pinned := [] } ∧
    getEntry { rooms := [], sessionState := [],
               exportSessions :=
                 [("b", { timer := true, running := false, queued := false })],
               pinned := ([] : List String) : ServerState }.rooms "b" = none ∧
    getEntry { rooms := [], sessionState := [],
               exportSessions :=
                 [("b", { timer := true, running := false, queued := false })],
               pinned := ([] : List String) : ServerState }.exportSessions "b"
      = some { timer := true, running := false, queued := false } := by
  refine ⟨?_, rfl, rfl⟩
  rfl

/-- C6 (amended): in every reachable server state a session is in the
room registry iff it has at least one connected client, and when the
last client of a session disconnects, the room entry, the session's
StateSnapshot entry and its export job are all removed — but export
jobs (with pending timers) and snapshots *can* be created for
client-less sessions via `atem-export-config`/`refresh` messages that
name another session, and such entries are only removed at shutdown,
never by a disconnect. -/
theorem session_registry_spec (enabled : Bool) (pinned0 : List String)
    (evs : List SrvEv) (st : ServerState) (S : String) (c : Nat) (cs : List Nat)
    (hrun : serverRun enabled (serverInit pinned0) evs = some st) :
    ((getEntry st.rooms S).isSome ↔
      ∃ cs', getEntry st.rooms S = some cs' ∧ cs' ≠ []) ∧
    (getEntry st.rooms S = some cs → cs.filter (fun x => x ≠ c) = [] →
      serverStep enabled st (.disconnect c) = some (leaveRoomS c st) ∧
      getEntry (leaveRoomS c st).rooms S = none ∧
      getEntry (leaveRoomS c st).sessionState S = none ∧
      getEntry (leaveRoomS c st).exportSessions S = none) := by
  have hinit : RoomsWF (serverInit pinned0) :=
    ⟨fun p hp => absurd hp (List.not_mem_nil p), List.nodup_nil⟩
  have hwf : RoomsWF st := serverRun_WF enabled evs hinit hrun
  constructor
  · constructor
    · intro hs
      cases heq : getEntry st.rooms S with
      | none => rw [heq] at hs; cases hs
      | some cs' =>
          exact ⟨cs', rfl, hwf.1 _ (getEntry_mem _ _ _ heq)⟩
    · intro ⟨cs', heq, _⟩
      rw [heq]
      rfl
  · intro hS hlast
    have ht := leaveRoom_teardown st S c cs hwf.2 hS hlast
    exact ⟨rfl, ht.1, ht.2.1, ht.2.2⟩

/-- The trace of the C6 witness: one client joins session `"demo"` and
sends a `show`; the state it reaches is `teardownState`. -/
def teardownTrace : List SrvEv :=
  [.connect 1 "demo" false, .message 1 showMsgDemo]

def teardownState : ServerState :=
  { rooms := [("demo", [1])],
    sessionState := [("demo",
      { settings := none, showPayload := some showMsgDemo.raw,
        showTickerPayload := none, overlayVisible := true,
        tickerVisible := false })],
    exportSessions := [("demo", { timer := true, running := false, queued := false })],
    pinned := [] }

/-- Witness for `session_registry_spec`: disconnecting the only client
of session `"demo"` removes its room, snapshot and export job. -/
theorem session_registry_spec_witness :
    getEntry (leaveRoomS 1 teardownState).rooms "demo" = none ∧
    getEntry (leaveRoomS 1 teardownState).sessionState "demo" = none ∧
    getEntry (leaveRoomS 1 teardownState).exportSessions "demo" = none :=
  let h := (session_registry_spec true [] teardownTrace teardownState
    "demo" 1 [1] rfl).2 rfl (by decide)
  ⟨h.2.1, h.2.2.1, h.2.2.2⟩

/-! ## HTTP surface: `GET /atem-live.png` and `GET /atem-live/<id>.png`

Both endpoints resolve a per-session export file path (optionally an
`alpha=straight|premultiplied` variant), read it, and serve it as
`image/png` with `Cache-Control: no-store, no-cache, must-revalidate,
proxy-revalidate, max-age=0`.  On a read miss, when export is enabled
the server writes a fully transparent placeholder PNG of the
configured dimensions (`writeTransparentPng`) and serves that; the
response is `404` when export is disabled (or when even the
placeholder write fails).  The filesystem is modelled as a
path-indexed map of decoded bitmaps, and a successful placeholder
write by the `writeOk` flag.
-/

/-- JavaScript `toLowerCase`, modelled on the character list. -/
def jsLower (s : String) : String :=
  String.mk (s.data.map Char.toLower)

/-- Default values of `ATEM_PNG_BASE_DIR` / `ATEM_PNG_BASE_STEM`
(derived from the default export path `exports/atem-live.png`; the
claims do not depend on the configured values). -/
def ATEM_PNG_BASE_DIR : String := "exports"

def ATEM_PNG_BASE_STEM : String := "atem-live"

def sanitizeSessionForFile (value : String) : String :=
  String.mk ((normalizeSessionId value).data.map
    (fun ch => if ch.isAlphanum || ch = '_' || ch = '-' then ch else '_'))

/-- The shared `dir/stem-safe` part of every per-session export path. -/
def atemSessionStem (sessionId : String) : String :=
  ATEM_PNG_BASE_DIR ++ "/" ++ ATEM_PNG_BASE_STEM ++ "-" ++ sanitizeSessionForFile sessionId

def getAtemExportPathForSession (sessionId : String) : String :=
  atemSessionStem sessionId ++ ".png"

def getAtemExportPathForSessionVariant (sessionId variant : String) : String :=
  let v := jsLower (jsTrim variant)
  if v = "straight" || v = "premultiplied" then
    atemSessionStem sessionId ++ "-" ++ v ++ ".png"
  else getAtemExportPathForSession sessionId

/-- `writeTransparentPng`: a `width × height` PNG whose data array is
entirely zero-filled (`png.data.fill(0)`), i.e. fully transparent. -/
def writeTransparentPng (w h : Nat) : Bitmap :=
  { width := w, height := h, data := List.replicate (4 * w * h) 0 }

structure HttpResponse where
  status : Nat
  contentType : String
  cacheControl : String
  pngBody : Option Bitmap
  deriving Repr, DecidableEq

theorem noStore_isPrefix :
    ("no-store".data.isPrefixOf
      "no-store, no-cache, must-revalidate, proxy-revalidate, max-age=0".data) = true := by
  decide

/-- The export-file target both endpoints resolve from the session id
and the optional `alpha` query parameter. -/
def atemTargetFor (sid : String) (alpha : Option String) : String :=
  let alphaMode := jsLower (jsTrim (alpha.getD ""))
  if alphaMode = "straight" || alphaMode = "premultiplied" then
    getAtemExportPathForSessionVariant sid alphaMode
  else getAtemExportPathForSession sid

/-- The common serving logic of both endpoints (`fs.readFile`, the
enabled-gated placeholder fallback, and the response headers), over
the filesystem map; returns the response and the updated filesystem. -/
def serveAtemPng (enabled writeOk : Bool) (w h : Nat)
    (files : List (String × Bitmap)) (target : String) :
    HttpResponse × List (String × Bitmap) :=
  match getEntry files target with
  | some data =>
      ({ status := 200, contentType := "image/png",
         cacheControl := "no-store, no-cache, must-revalidate, proxy-revalidate, max-age=0",
         pngBody := some data }, files)
  | none =>
      if enabled then
        if writeOk then
          let png := writeTransparentPng w h
          ({ status := 200, contentType := "image/png",
             cacheControl := "no-store, no-cache, must-revalidate, proxy-revalidate, max-age=0",
             pngBody := some png }, setEntry files target png)
        else
          ({ status := 404, contentType := "text/plain; charset=utf-8",
             cacheControl := "no-store", pngBody := none }, files)
      else
        ({ status := 404, contentType := "text/plain; charset=utf-8",
           cacheControl := "no-store", pngBody := none }, files)

/-- `GET /atem-live.png?session=<id>[&alpha=...]`: 400 without a
session parameter, otherwise the shared serving logic. -/
def atemLiveQueryRoute (enabled writeOk : Bool) (w h : Nat)
    (files : List (String × Bitmap)) (sessionParam alpha : Option String) :
    HttpResponse × List (String × Bitmap) :=
  match sessionParam with
  | none =>
      ({ status := 400, contentType := "text/plain; charset=utf-8",
         cacheControl := "no-store", pngBody := none }, files)
  | some rawSession =>
      serveAtemPng enabled writeOk w h files
        (atemTargetFor (normalizeSessionId rawSession) alpha)

/-- `GET /atem-live/<id>.png[?alpha=...]`: the path segment is the
session id (URI-decoding is the identity on the ids modelled here). -/
def atemLivePathRoute (enabled writeOk : Bool) (w h : Nat)
    (files : List (String × Bitmap)) (sessionSeg : String) (alpha : Option String) :
    HttpResponse × List (String × Bitmap) :=
  serveAtemPng enabled writeOk w h files
    (atemTargetFor (normalizeSessionId sessionSeg) alpha)

/-- C7: for every session id and alpha variant, both `/atem-live`
endpoints behave identically; every 200 response carries
`Content-Type: image/png` and a `Cache-Control` whose first directive
is `no-store`; when no export file exists and export is enabled (and
the placeholder write succeeds) the response is a 200 with a fully
transparent PNG of the configured width and height, generated on
demand; the placeholder is genuinely `w × h` and fully transparent;
and when no export file exists and export is globally disabled the
response is 404. -/
theorem atem_live_get_spec (enabled writeOk : Bool) (w h : Nat)
    (files : List (String × Bitmap)) (sid : String) (alpha : Option String) :
    (atemLivePathRoute enabled writeOk w h files sid alpha
      = atemLiveQueryRoute enabled writeOk w h files (some sid) alpha) ∧
    ((atemLivePathRoute enabled writeOk w h files sid alpha).1.status = 200 →
      (atemLivePathRoute enabled writeOk w h files sid alpha).1.contentType
          = "image/png" ∧
      ("no-store".data.isPrefixOf
        (atemLivePathRoute enabled writeOk w h files sid alpha).1.cacheControl.data)
          = true) ∧
    (getEntry files (atemTargetFor (normalizeSessionId sid) alpha) = none →
      enabled = true → writeOk = true →
      (atemLivePathRoute enabled writeOk w h files sid alpha).1
        = { status := 200, contentType := "image/png",
            cacheControl := "no-store, no-cache, must-revalidate, proxy-revalidate, max-age=0",
            pngBody := some (writeTransparentPng w h) }) ∧
    ((writeTransparentPng w h).width = w ∧ (writeTransparentPng w h).height = h ∧
      ∀ i, (writeTransparentPng w h).data.getD i 0 = 0) ∧
    (getEntry files (atemTargetFor (normalizeSessionId sid) alpha) = none →
      enabled = false →
      (atemLivePathRoute enabled writeOk w h files sid alpha).1.status = 404) := by
  refine ⟨rfl, ?_, ?_, ⟨rfl, rfl, ?_⟩, ?_⟩
  · intro h200
    unfold atemLivePathRoute serveAtemPng at h200 ⊢
    cases hge : getEntry files (atemTargetFor (normalizeSessionId sid) alpha) with
    | some d => exact ⟨rfl, noStore_isPrefix⟩
    | none =>
        rw [hge] at h200
        cases enabled with
        | false => simp at h200
        | true =>
            cases writeOk with
            | false => simp at h200
            | true => exact ⟨rfl, noStore_isPrefix⟩
  · intro hge he hw
    unfold atemLivePathRoute serveAtemPng
    rw [hge, he, hw]
    rfl
  · intro i
    simp only [writeTransparentPng]
    by_cases hi : i < 4 * w * h
    · rw [List.getD_eq_getElem?_getD]
      simp [List.getElem?_replicate, hi]
    · rw [List.getD_eq_getElem?_getD]
      rw [List.getElem?_eq_none (by simpa using Nat.le_of_not_lt hi)]
      rfl
  · intro hge he
    unfold atemLivePathRoute serveAtemPng
    rw [hge, he]
    rfl

/-- Witness for `atem_live_get_spec`: a fresh session on an empty
filesystem with export enabled yields the transparent placeholder
response, and with export disabled a 404. -/
theorem atem_live_get_spec_witness :
    (atemLivePathRoute true true 1920 1080 [] "demo" none).1
      = { status := 200, contentType := "image/png",
          cacheControl := "no-store, no-cache, must-revalidate, proxy-revalidate, max-age=0",
          pngBody := some (writeTransparentPng 1920 1080) } ∧
    (atemLivePathRoute false true 1920 1080 [] "demo" none).1.status = 404 ∧
    (writeTransparentPng 1920 1080).data.getD 3 0 = 0 :=
  ⟨(atem_live_get_spec true true 1920 1080 [] "demo" none).2.2.1 rfl rfl rfl,
   (atem_live_get_spec false true 1920 1080 [] "demo" none).2.2.2.2 rfl rfl,
   (atem_live_get_spec true true 1920 1080 [] "demo" none).2.2.2.1.2.2 3⟩

/-! ## ExportPublisher: `renderPngExport` artifacts and webhook

```js
const straightBuffer = await exp.page.screenshot({ type: 'png', omitBackground: true });
const premultBuffer = premultiplyAlphaPng(straightBuffer);
fs.writeFileSync(tmpStraightPath, straightBuffer);
fs.writeFileSync(tmpPremultPath, premultBuffer);
fs.renameSync(tmpStraightPath, straightPath);
fs.renameSync(tmpPremultPath, premultPath);
const finalBuffer = ATEM_PNG_MODE === 'premultiplied' ? premultBuffer : straightBuffer;
fs.writeFileSync(tmpPath, finalBuffer);
fs.renameSync(tmpPath, exportPath);
void triggerAtemPngWebhook(sessionId);
```

The filesystem side effects are embedded as an event trace; `write`
is a (non-atomic) file write, `rename` an atomic rename, and
`webhookFire` the fire-and-forget webhook call.
-/

theorem string_append_cancel_left {a b c : String} (h : a ++ b = a ++ c) : b = c := by
  have hd : a.data ++ b.data = a.data ++ c.data := by
    have h2 := congrArg String.data h
    simpa [String.data_append] using h2
  have h3 := List.append_cancel_left hd
  cases b; cases c
  exact congrArg String.mk h3

theorem string_append_ne_of_ne (a : String) {b c : String} (h : b ≠ c) :
    a ++ b ≠ a ++ c :=
  fun hc => h (string_append_cancel_left hc)

def delEntry {α : Type} (l : List (String × α)) (k : String) : List (String × α) :=
  l.filter (fun p => p.1 ≠ k)

theorem getEntry_setEntry_same {α : Type} : ∀ (l : List (String × α)) (k : String)
    (v : α), getEntry (setEntry l k v) k = some v
  | [], k, v => by simp [setEntry, getEntry]
  | (k', v') :: t, k, v => by
      by_cases hk : k' = k
      · simp [setEntry, hk, getEntry]
      · simp [setEntry, hk, getEntry, getEntry_setEntry_same t k v]

theorem getEntry_setEntry_ne {α : Type} : ∀ (l : List (String × α)) (k : String)
    (v : α) (k2 : String), k ≠ k2 → getEntry (setEntry l k v) k2 = getEntry l k2
  | [], k, v, k2, h => by simp [setEntry, getEntry, h]
  | (k', v') :: t, k, v, k2, h => by
      by_cases hk : k' = k
      · subst hk
        simp [setEntry, getEntry, h]
      · simp only [setEntry, if_neg hk, getEntry]
        by_cases hk2 : k' = k2
        · simp [hk2]
        · simp [hk2, getEntry_setEntry_ne t k v k2 h]

theorem getEntry_delEntry_ne {α : Type} : ∀ (l : List (String × α)) (k k2 : String),
    k ≠ k2 → getEntry (delEntry l k) k2 = getEntry l k2
  | [], _, _, _ => rfl
  | (k', v') :: t, k, k2, h => by
      have ih := getEntry_delEntry_ne t k k2 h
      simp only [delEntry, ne_eq, decide_not] at ih
      by_cases hk : k' = k
      · subst hk
        have hne2 : k' ≠ k2 := h
        simp [delEntry, List.filter_cons, getEntry, hne2]
        exact ih
      · by_cases hk2 : k' = k2
        · subst hk2
          simp [delEntry, List.filter_cons, getEntry, hk]
        · simp [delEntry, List.filter_cons, getEntry, hk, hk2]
          exact ih

/-- One observable effect of the publish path. -/
inductive PubEv where
  | write (path : String) (content : Bitmap)
  | rename (src dst : String)
  | webhookFire (sessionId : String)
  deriving Repr, DecidableEq

/-- The effect trace of `renderPngExport` after the screenshot: write
both variants to temporary paths, rename them into place, write and
rename the default-mode file, then fire the webhook.  `mode` is the
configured `ATEM_PNG_MODE` and `straightBuffer` the captured
straight-alpha screenshot. -/
def renderPublishEvents (mode sid : String) (straightBuffer : Bitmap) : List PubEv :=
  let premultBuffer := premultiplyAlphaPng straightBuffer
  let exportPath := getAtemExportPathForSession sid
  let straightPath := getAtemExportPathForSessionVariant sid "straight"
  let premultPath := getAtemExportPathForSessionVariant sid "premultiplied"
  let finalBuffer := if mode = "premultiplied" then premultBuffer else straightBuffer
  [ .write (straightPath ++ ".tmp") straightBuffer,
    .write (premultPath ++ ".tmp") premultBuffer,
    .rename (straightPath ++ ".tmp") straightPath,
    .rename (premultPath ++ ".tmp") premultPath,
    .write (exportPath ++ ".tmp") finalBuffer,
    .rename (exportPath ++ ".tmp") exportPath,
    .webhookFire sid ]

/-- Filesystem semantics of one effect: `write` installs content at a
path, `rename` atomically moves it, the webhook does not touch files. -/
def applyPubEv (files : List (String × Bitmap)) : PubEv → List (String × Bitmap)
  | .write p c => setEntry files p c
  | .rename src dst =>
      ((getEntry files src).map
        (fun c => setEntry (delEntry files src) dst c)).getD files
  | .webhookFire _ => files

def runPub (files : List (String × Bitmap)) (evs : List PubEv) : List (String × Bitmap) :=
  evs.foldl applyPubEv files

/-- `triggerAtemPngWebhook`: no-op without a configured URL; otherwise
POST with a bounded timeout, where a non-2xx status or a thrown
error/timeout is only logged — the function always resolves
successfully and never propagates a failure to its caller
(`renderPngExport` fires it with `void`, not `await`). -/
def triggerAtemPngWebhook (webhookUrl : String)
    (postResult : Except String Nat) : Except String Unit :=
  if webhookUrl = "" then .ok ()
  else
    match postResult with
    | .ok _ => .ok ()
    | .error _ => .ok ()

theorem straightPath_eq (sid : String) :
    getAtemExportPathForSessionVariant sid "straight"
      = atemSessionStem sid ++ "-straight.png" := by
  have hv : jsLower (jsTrim "straight") = "straight" := by decide
  simp only [getAtemExportPathForSessionVariant, hv]
  rw [if_pos (by decide)]
  rw [String.append_assoc, String.append_assoc]
  congr 1

theorem premultPath_eq (sid : String) :
    getAtemExportPathForSessionVariant sid "premultiplied"
      = atemSessionStem sid ++ "-premultiplied.png" := by
  have hv : jsLower (jsTrim "premultiplied") = "premultiplied" := by decide
  simp only [getAtemExportPathForSessionVariant, hv]
  rw [if_pos (by decide)]
  rw [String.append_assoc, String.append_assoc]
  congr 1

theorem exportTmpPath_straight (sid : String) :
    getAtemExportPathForSessionVariant sid "straight" ++ ".tmp"
      = atemSessionStem sid ++ "-straight.png.tmp" := by
  rw [straightPath_eq, String.append_assoc]
  congr 1

theorem exportTmpPath_premult (sid : String) :
    getAtemExportPathForSessionVariant sid "premultiplied" ++ ".tmp"
      = atemSessionStem sid ++ "-premultiplied.png.tmp" := by
  rw [premultPath_eq, String.append_assoc]
  congr 1

theorem exportTmpPath_default (sid : String) :
    getAtemExportPathForSession sid ++ ".tmp"
      = atemSessionStem sid ++ ".png.tmp" := by
  rw [show getAtemExportPathForSession sid = atemSessionStem sid ++ ".png" from rfl,
    String.append_assoc]
  congr 1

set_option maxHeartbeats 2000000 in
/-- C8: publishing an export writes exactly three artifacts — the
straight-alpha variant, the premultiplied variant (the straight buffer
premultiplied), and the default file whose content is the
premultiplied buffer when the configured mode is `premultiplied` and
the straight buffer otherwise; every `write` in the trace targets a
`.tmp` path and never a published path, and every `rename` atomically
moves a `.tmp` file onto its published path (so a concurrent reader
of a published path never observes a partial file); the webhook event
is the last event of the trace, strictly after every file event; and
the webhook call always resolves successfully whatever the POST
outcome, so a webhook failure or timeout never fails the publish or
the triggering render. -/
theorem render_publish_spec (mode sid : String) (files : List (String × Bitmap))
    (buf : Bitmap) (url : String) (post : Except String Nat) :
    (getEntry (runPub files (renderPublishEvents mode sid buf))
        (getAtemExportPathForSessionVariant sid "straight") = some buf) ∧
    (getEntry (runPub files (renderPublishEvents mode sid buf))
        (getAtemExportPathForSessionVariant sid "premultiplied")
        = some (premultiplyAlphaPng buf)) ∧
    (getEntry (runPub files (renderPublishEvents mode sid buf))
        (getAtemExportPathForSession sid)
        = some (if mode = "premultiplied" then premultiplyAlphaPng buf else buf)) ∧
    (∀ p c, PubEv.write p c ∈ renderPublishEvents mode sid buf →
      (p = getAtemExportPathForSessionVariant sid "straight" ++ ".tmp" ∨
       p = getAtemExportPathForSessionVariant sid "premultiplied" ++ ".tmp" ∨
       p = getAtemExportPathForSession sid ++ ".tmp") ∧
      p ≠ getAtemExportPathForSessionVariant sid "straight" ∧
      p ≠ getAtemExportPathForSessionVariant sid "premultiplied" ∧
      p ≠ getAtemExportPathForSession sid) ∧
    (∀ a b, PubEv.rename a b ∈ renderPublishEvents mode sid buf →
      a = b ++ ".tmp" ∧
      (b = getAtemExportPathForSessionVariant sid "straight" ∨
       b = getAtemExportPathForSessionVariant sid "premultiplied" ∨
       b = getAtemExportPathForSession sid)) ∧
    ((renderPublishEvents mode sid buf).getLast? = some (.webhookFire sid) ∧
      ∀ e ∈ (renderPublishEvents mode sid buf).dropLast,
        ∀ s, e ≠ PubEv.webhookFire s) ∧
    triggerAtemPngWebhook url post = Except.ok () := by
  have hS := straightPath_eq sid
  have hM := premultPath_eq sid
  have hE : getAtemExportPathForSession sid = atemSessionStem sid ++ ".png" := rfl
  have hSt := exportTmpPath_straight sid
  have hMt := exportTmpPath_premult sid
  have hEt := exportTmpPath_default sid
  have hne : ∀ {x y : String}, x ≠ y →
      atemSessionStem sid ++ x ≠ atemSessionStem sid ++ y :=
    fun h => string_append_ne_of_ne (atemSessionStem sid) h
  refine ⟨?_, ?_, ?_, ?_, ?_, ⟨rfl, ?_⟩, ?_⟩
  · -- straight artifact
    simp only [renderPublishEvents, runPub, List.foldl_cons, List.foldl_nil, applyPubEv]
    rw [hSt, hMt, hEt, hS, hM, hE]
    rw [getEntry_setEntry_ne _ _ _ _ (hne (by decide)), getEntry_setEntry_same]
    simp only [Option.map_some', Option.getD_some]
    rw [getEntry_setEntry_ne _ _ _ _ (hne (by decide)),
      getEntry_delEntry_ne _ _ _ (hne (by decide)), getEntry_setEntry_same]
    simp only [Option.map_some', Option.getD_some]
    rw [getEntry_setEntry_same]
    simp only [Option.map_some', Option.getD_some]
    rw [getEntry_setEntry_ne _ _ _ _ (hne (by decide)),
      getEntry_delEntry_ne _ _ _ (hne (by decide)),
      getEntry_setEntry_ne _ _ _ _ (hne (by decide)),
      getEntry_setEntry_ne _ _ _ _ (hne (by decide)),
      getEntry_delEntry_ne _ _ _ (hne (by decide)),
      getEntry_setEntry_same]
  · -- premultiplied artifact
    simp only [renderPublishEvents, runPub, List.foldl_cons, List.foldl_nil, applyPubEv]
    rw [hSt, hMt, hEt, hS, hM, hE]
    rw [getEntry_setEntry_ne _ _ _ _ (hne (by decide)), getEntry_setEntry_same]
    simp only [Option.map_some', Option.getD_some]
    rw [getEntry_setEntry_ne _ _ _ _ (hne (by decide)),
      getEntry_delEntry_ne _ _ _ (hne (by decide)), getEntry_setEntry_same]
    simp only [Option.map_some', Option.getD_some]
    rw [getEntry_setEntry_same]
    simp only [Option.map_some', Option.getD_some]
    rw [getEntry_setEntry_ne _ _ _ _ (hne (by decide)),
      getEntry_delEntry_ne _ _ _ (hne (by decide)),
      getEntry_setEntry_ne _ _ _ _ (hne (by decide)),
      getEntry_setEntry_same]
  · -- default artifact
    simp only [renderPublishEvents, runPub, List.foldl_cons, List.foldl_nil, applyPubEv]
    rw [hSt, hMt, hEt, hS, hM, hE]
    rw [getEntry_setEntry_ne _ _ _ _ (hne (by decide)), getEntry_setEntry_same]
    simp only [Option.map_some', Option.getD_some]
    rw [getEntry_setEntry_ne _ _ _ _ (hne (by decide)),
      getEntry_delEntry_ne _ _ _ (hne (by decide)), getEntry_setEntry_same]
    simp only [Option.map_some', Option.getD_some]
    rw [getEntry_setEntry_same]
    simp only [Option.map_some', Option.getD_some]
    rw [getEntry_setEntry_same]
  · -- writes only target tmp paths
    intro p c hmem
    simp only [renderPublishEvents, List.mem_cons, List.not_mem_nil, or_false] at hmem
    rcases hmem with h | h | h | h | h | h | h
    · injection h with h1 h2
      subst h1
      refine ⟨Or.inl rfl, ?_, ?_, ?_⟩
      · rw [hSt, hS]; exact hne (by decide)
      · rw [hSt, hM]; exact hne (by decide)
      · rw [hSt, hE]; exact hne (by decide)
    · injection h with h1 h2
      subst h1
      refine ⟨Or.inr (Or.inl rfl), ?_, ?_, ?_⟩
      · rw [hMt, hS]; exact hne (by decide)
      · rw [hMt, hM]; exact hne (by decide)
      · rw [hMt, hE]; exact hne (by decide)
    · cases h
    · cases h
    · injection h with h1 h2
      subst h1
      refine ⟨Or.inr (Or.inr rfl), ?_, ?_, ?_⟩
      · rw [hEt, hS]; exact hne (by decide)
      · rw [hEt, hM]; exact hne (by decide)
      · rw [hEt, hE]; exact hne (by decide)
    · cases h
    · cases h
  · -- renames move tmp files onto their published paths
    intro a b hmem
    simp only [renderPublishEvents, List.mem_cons, List.not_mem_nil, or_false] at hmem
    rcases hmem with h | h | h | h | h | h | h
    · cases h
    · cases h
    · injection h with h1 h2
      subst h1; subst h2
      exact ⟨rfl, Or.inl rfl⟩
    · injection h with h1 h2
      subst h1; subst h2
      exact ⟨rfl, Or.inr (Or.inl rfl)⟩
    · cases h
    · injection h with h1 h2
      subst h1; subst h2
      exact ⟨rfl, Or.inr (Or.inr rfl)⟩
    · cases h
  · -- no webhook before the last event
    intro e he s
    simp only [renderPublishEvents, List.dropLast, List.mem_cons, List.not_mem_nil,
      or_false] at he
    rcases he with h | h | h | h | h | h <;> (subst h; intro hc; cases hc)
  · -- webhook totality
    unfold triggerAtemPngWebhook
    by_cases hu : url = ""
    · rw [if_pos hu]
    · rw [if_neg hu]
      cases post <;> rfl

/-- A one-pixel straight-alpha capture used to exercise the publisher. -/
def demoBuf : Bitmap := { width := 1, height := 1, data := [200, 100, 50, 128] }

/-- Witness for `render_publish_spec`: a concrete publish in
`premultiplied` mode for session `"demo"` puts the premultiplied
buffer at the default path, and the first write of the trace targets
the straight `.tmp` path, which is not a published path. -/
theorem render_publish_spec_witness :
    getEntry (runPub [] (renderPublishEvents "premultiplied" "demo" demoBuf))
        (getAtemExportPathForSession "demo")
      = some (if "premultiplied" = "premultiplied"
          then premultiplyAlphaPng demoBuf else demoBuf) ∧
    (getAtemExportPathForSessionVariant "demo" "straight" ++ ".tmp")
      ≠ getAtemExportPathForSession "demo" :=
  ⟨(render_publish_spec "premultiplied" "demo" [] demoBuf "" (.ok 200)).2.2.1,
   ((render_publish_spec "premultiplied" "demo" [] demoBuf "" (.ok 200)).2.2.2.1
      (getAtemExportPathForSessionVariant "demo" "straight" ++ ".tmp") demoBuf
      (List.mem_cons_self _ _)).2.2.2⟩
